import Mathlib

/-!
Verification development for the YouTube-Filter single-page application.

The repository holds two revisions of the same app:
* `src/unnamed/part_000` — the latest revision ("FEQT" scorer: recency,
  engagement, virality factors), modelled in namespace `Feqt`;
* `src/src/App.tsx` — the manual-entry revision (bayesian-smoothed scorer),
  modelled in namespace `Bayes`.

Conventions of the shallow embedding:
* JavaScript numbers are modelled by `ℕ`/`ℤ` for counters, `ℚ` for values
  that only pass through ratio comparisons and serialized state, and `ℝ`
  for the transcendental score arithmetic (`Math.exp`, `Math.log10`).
* A JavaScript computation whose floating-point result is non-finite
  (`NaN` or `±Infinity`) is modelled by `Option ℝ` with `none` for the
  non-finite case.
* Strings are Lean `String`s; character-level work happens on `.toList`.
* Date arithmetic (`differenceInDays(new Date(), new Date(publishDate))`)
  is external to the repository (date-fns); a record carries the resulting
  signed day count `ageDays : ℤ` directly.
-/

set_option maxHeartbeats 1000000

namespace YTFilter

/-! ## Shared string helpers (both revisions) -/

/-- Character class `[a-zA-Z0-9_-]` used by the video-id regexes. -/
def idChar (c : Char) : Bool := c.isAlpha || c.isDigit || c = '_' || c = '-'

/-- Drops the leading `https://` or `http://` if present, i.e. the optional
regex group `(https?:\/\/)?`. -/
def stripScheme (s : List Char) : List Char :=
  if ("https://".toList).isPrefixOf s then s.drop 8
  else if ("http://".toList).isPrefixOf s then s.drop 7
  else s

/-- Drops the given leading characters when present (an optional regex group). -/
def stripIf (p s : List Char) : List Char :=
  if p.isPrefixOf s then s.drop p.length else s

/-- Matches the optional trailing `(&t=\d+s)?` group of the part_000 regex:
the remainder is empty, or `&t=` followed by one or more digits and `s`. -/
def timeTagOk (s : List Char) : Bool :=
  match s with
  | [] => true
  | _ =>
    ("&t=".toList).isPrefixOf s &&
      (let r := s.drop 3
       decide (2 ≤ r.length) && r.dropLast.all Char.isDigit && decide (r.getLast? = some 's'))

/-- Host-and-path alternation of the part_000 regex
`(youtube\.com\/(watch\?v=|shorts\/)|youtu\.be\/)`; returns the characters
after the matched part, or `none`. -/
def hostTail (s : List Char) : Option (List Char) :=
  if ("youtube.com/".toList).isPrefixOf s then
    let r := s.drop 12
    if ("watch?v=".toList).isPrefixOf r then some (r.drop 8)
    else if ("shorts/".toList).isPrefixOf r then some (r.drop 7)
    else none
  else if ("youtu.be/".toList).isPrefixOf s then some (s.drop 9)
  else none

/-- `validateYouTubeUrl` of part_000 (line 73): full-anchored match of
`^(https?:\/\/)?(www\.)?(youtube\.com\/(watch\?v=|shorts\/)|youtu\.be\/)[a-zA-Z0-9_-]{11}(&t=\d+s)?$`. -/
def validateYouTubeUrl (url : String) : Bool :=
  let s := stripIf ("www.".toList) (stripScheme url.toList)
  match hostTail s with
  | none => false
  | some r => decide (11 ≤ r.length) && (r.take 11).all idChar && timeTagOk (r.drop 11)

/-- Host-and-path alternation of the App.tsx regex
`(youtube\.com\/watch\?v=|youtu\.be\/)` (no shorts form). -/
def hostTailB (s : List Char) : Option (List Char) :=
  if ("youtube.com/watch?v=".toList).isPrefixOf s then some (s.drop 20)
  else if ("youtu.be/".toList).isPrefixOf s then some (s.drop 9)
  else none

/-- `validateYouTubeUrl` of App.tsx (line 66): full-anchored match of
`^(https?:\/\/)?(www\.)?(youtube\.com\/watch\?v=|youtu\.be\/)[a-zA-Z0-9_-]{11}$`. -/
def validateYouTubeUrlB (url : String) : Bool :=
  let s := stripIf ("www.".toList) (stripScheme url.toList)
  match hostTailB s with
  | none => false
  | some r => decide (r.length = 11) && r.all idChar

/-- Marker alternation of the unanchored `getVideoId` regex of part_000
(line 78): `(?:youtube\.com\/(?:watch\?v=|shorts\/)|youtu\.be\/)`. -/
def markerAt (s : List Char) : Option (List Char) :=
  if ("youtube.com/watch?v=".toList).isPrefixOf s then some (s.drop 20)
  else if ("youtube.com/shorts/".toList).isPrefixOf s then some (s.drop 19)
  else if ("youtu.be/".toList).isPrefixOf s then some (s.drop 9)
  else none

/-- Tries the `getVideoId` pattern at the current position: a marker followed
by 11 id characters. -/
def idAt (s : List Char) : Option String :=
  match markerAt s with
  | some r =>
    if decide (11 ≤ r.length) && (r.take 11).all idChar then some ⟨r.take 11⟩ else none
  | none => none

/-- Left-to-right scan of the unanchored regex search in `getVideoId`. -/
def getVideoIdAux : List Char → Option String
  | [] => none
  | c :: t =>
    match idAt (c :: t) with
    | some i => some i
    | none => getVideoIdAux t

/-- `getVideoId` of part_000 (line 78): first match of the video-id pattern
anywhere in the string. -/
def getVideoId (url : String) : Option String := getVideoIdAux url.toList

/-- The deduplication key `url.split('&')[0]` used by `addVideo` (line 128). -/
def cleanUrl (url : String) : String := ⟨url.toList.takeWhile (fun c => c ≠ '&')⟩

/-- JavaScript `String.prototype.trim`. -/
def jsTrim (s : String) : String :=
  ⟨((s.toList.dropWhile Char.isWhitespace).reverse.dropWhile Char.isWhitespace).reverse⟩

/-! ## Feqt revision — `src/unnamed/part_000` -/

namespace Feqt

/-- The `VideoData` interface of part_000 (lines 5-18).  The six derived
fields are separate optional fields exactly as in the TypeScript type, so a
record with only some derived fields set is representable and the
all-or-none property is a real invariant.  `ageDays` stands for the externally computed
`differenceInDays(new Date(), video.publishDate)`. -/
structure VideoData where
  id : String
  url : String
  views : ℕ
  likes : ℕ
  comments : ℕ
  ageDays : ℤ
  score : Option ℝ := none
  normalizedScore : Option ℝ := none
  recencyFactor : Option ℝ := none
  engagementFactor : Option ℝ := none
  viralityFactor : Option ℝ := none
  warnings : Option (List String) := none

/-- The `AnalysisHistory` interface (lines 20-26). -/
structure AnalysisHistory where
  id : String
  name : String
  date : String
  videos : List VideoData
  showResults : Bool

/-- The React state relevant to the catalog operations. -/
structure AppState where
  videos : List VideoData
  showResults : Bool
  history : List AnalysisHistory
  saveName : String

/-- Constant `RECENCY_DECAY = -0.005` (line 42). -/
def RECENCY_DECAY : ℝ := -0.005

/-- Constant `VIRALITY_MAX = 6` (line 41). -/
def VIRALITY_MAX : ℝ := 6

/-- Constant `FEQT_MAX_WITH_RECENCY = 1.5` (line 39). -/
def FEQT_MAX_WITH_RECENCY : ℝ := 1.5

/-- Constant `FEQT_MAX_WITHOUT_RECENCY = 2.5` (line 40). -/
def FEQT_MAX_WITHOUT_RECENCY : ℝ := 2.5

/-- JavaScript `views || 1`: the view count floored to 1 (lines 179-180). -/
def jsOr1 (n : ℕ) : ℕ := if n = 0 then 1 else n

/-- `Math.max(differenceInDays(...), 1)` (line 173). -/
def daysFloor (age : ℤ) : ℤ := max age 1

/-- `likesRatio = (video.likes ?? 0) / (video.views || 1)` (line 179); the
ratio of two JavaScript numbers, kept in `ℚ` (it is compared against rational
thresholds and scaled into the real-valued engagement factor). -/
def likesFrac (likes views : ℕ) : ℚ := (likes : ℚ) / ((jsOr1 views : ℕ) : ℚ)

/-- `commentsRatio = (video.comments ?? 0) / (video.views || 1)` (line 180). -/
def commentsFrac (comments views : ℕ) : ℚ := (comments : ℚ) / ((jsOr1 views : ℕ) : ℚ)

/-- `R = Math.exp(RECENCY_DECAY * daysSincePublish)` (line 176); takes the
already-floored day count. -/
noncomputable def recencyR (d : ℤ) : ℝ := Real.exp (RECENCY_DECAY * (d : ℝ))

/-- `E = (likesRatio * 0.7) + (commentsRatio * 0.3)` (line 181). -/
noncomputable def engagementE (likes comments views : ℕ) : ℝ :=
  ((likesFrac likes views : ℚ) : ℝ) * 0.7 + ((commentsFrac comments views : ℚ) : ℝ) * 0.3

/-- `V = Math.min(Math.log10(views / daysSincePublish + 1), VIRALITY_MAX)`
(line 184). -/
noncomputable def viralityV (views : ℕ) (d : ℤ) : ℝ :=
  min (Real.logb 10 ((views : ℝ) / (d : ℝ) + 1)) VIRALITY_MAX

/-- `baseScore` (lines 187-189). -/
noncomputable def baseScore (inc : Bool) (r e v : ℝ) : ℝ :=
  if inc then r * 0.4 + e * 0.5 + v * 0.1 else e * 0.7 + v * 0.3

/-- `normalizedScore = baseScore / (includeRecency ? 1.5 : 2.5) * 100`
(line 192). -/
noncomputable def normScore (inc : Bool) (base : ℝ) : ℝ :=
  base / (if inc then FEQT_MAX_WITH_RECENCY else FEQT_MAX_WITHOUT_RECENCY) * 100

/-- The three warning pushes (lines 194-197), in source order. -/
def warningsOf (views likes comments : ℕ) (d : ℤ) : List String :=
  (if likesFrac likes views < 1/100 then ["⚠️ Bajo ratio de likes (<1%)"] else []) ++
  (if commentsFrac comments views < 1/1000 then ["⚠️ Bajo ratio de comentarios (<0.1%)"] else []) ++
  (if (views : ℚ) / (d : ℚ) < 100 then ["⚠️ Bajo crecimiento diario (<100 vistas/día)"] else [])

/-- The per-record body of `calculateScores` (lines 172-207): spreads the
input record and sets all six derived fields. -/
noncomputable def scoreVideo (inc : Bool) (v : VideoData) : VideoData :=
  let d := daysFloor v.ageDays
  let r := recencyR d
  let e := engagementE v.likes v.comments v.views
  let vv := viralityV v.views d
  let base := baseScore inc r e vv
  { v with
    score := some base
    normalizedScore := some (normScore inc base)
    recencyFactor := some r
    engagementFactor := some e
    viralityFactor := some vv
    warnings := some (warningsOf v.views v.likes v.comments d) }

/-- `calculateScores` (lines 166-212): aborts on an empty catalog, otherwise
maps `scoreVideo` over the whole catalog and shows the results. -/
noncomputable def calculateScores (inc : Bool) (st : AppState) : AppState :=
  if st.videos.isEmpty then st
  else { st with videos := st.videos.map (scoreVideo inc), showResults := true }

/-- The statistics fetched for one video by `fetchVideoData` (lines 88-120),
with the publish date already turned into a signed day count. -/
structure Fetched where
  views : ℕ
  likes : ℕ
  comments : ℕ
  ageDays : ℤ

/-- `addVideo` (lines 122-160).  `fetched = none` models a failed network
fetch (the `catch` branch).  Every failing branch returns the state
unchanged. -/
def addVideo (newId : String) (fetched : Option Fetched) (newUrl : String)
    (st : AppState) : AppState :=
  if newUrl = "" ∨ validateYouTubeUrl newUrl = false then st
  else if st.videos.any (fun v => cleanUrl v.url == cleanUrl newUrl) then st
  else
    match getVideoId newUrl with
    | none => st
    | some _ =>
      match fetched with
      | none => st
      | some f =>
        { st with
          videos := st.videos ++
            [{ id := newId, url := cleanUrl newUrl, views := f.views, likes := f.likes,
               comments := f.comments, ageDays := f.ageDays }] }

/-- `removeVideo` (lines 162-164). -/
def removeVideo (vid : String) (st : AppState) : AppState :=
  { st with videos := st.videos.filter (fun v => !(v.id == vid)) }

/-- `saveCurrentAnalysis` (lines 214-236). -/
def saveCurrentAnalysis (newId date : String) (st : AppState) : AppState :=
  if st.videos.isEmpty then st
  else if jsTrim st.saveName = "" then st
  else
    { st with
      history := st.history ++ [⟨newId, st.saveName, date, st.videos, st.showResults⟩]
      saveName := "" }

/-- `clearCurrentAnalysis` (lines 249-257); `confirmed` is the result of the
browser `confirm` dialog. -/
def clearCurrentAnalysis (confirmed : Bool) (st : AppState) : AppState :=
  if confirmed then { st with videos := [], showResults := false, saveName := "" } else st

/-- States reachable from the initial React state through the four catalog
operations named by the specification: add, remove, compute scores, clear. -/
inductive Reachable : AppState → Prop where
  | init : Reachable ⟨[], false, [], ""⟩
  | add {st} (i : String) (f : Option Fetched) (u : String) :
      Reachable st → Reachable (addVideo i f u st)
  | remove {st} (i : String) : Reachable st → Reachable (removeVideo i st)
  | compute {st} (inc : Bool) : Reachable st → Reachable (calculateScores inc st)
  | clear {st} (c : Bool) : Reachable st → Reachable (clearCurrentAnalysis c st)

end Feqt

/-! ## Bayes revision — `src/src/App.tsx` -/

namespace Bayes

/-- The `VideoData` interface of App.tsx (lines 4-13).  Counters are `ℤ`
because they come from `Number(value)` on free-form inputs and the code
checks some of them for negativity.  The computed score is a floating-point
value that can be non-finite, hence the inner `Option ℝ`: the outer layer is
field presence (before/after `calculateScores`), the inner `none` models a
`NaN`/`Infinity` result. -/
structure VideoData where
  id : String
  url : String
  views : ℤ
  likes : ℤ
  comments : ℤ
  year : ℤ
  score : Option (Option ℝ) := none
  warnings : Option (List String) := none

/-- `adjustedER = ((likes + comments + m) / (views + m)) * 100` with `m = 100`
(line 123). -/
noncomputable def adjustedER (views likes comments : ℤ) : ℝ :=
  ((likes + comments + 100 : ℤ) : ℝ) / ((views + 100 : ℤ) : ℝ) * 100

/-- `Math.max(...videos.map(video => video.views))` (line 118).  Only reached
for a non-empty catalog (`calculateScores` aborts on an empty one); the `[]`
value is arbitrary. -/
def maxViews : List VideoData → ℤ
  | [] => 0
  | [v] => v.views
  | v :: w :: l => max v.views (maxViews (w :: l))

/-- The score expression of App.tsx `calculateScores` (lines 125-129).
`none` models a non-finite floating-point result, which for integer inputs
happens exactly when `views < 0` (`log10` of a non-positive number),
`maxViews ≤ 0` (`log10(maxViews+1)` is zero or `NaN`, so the popularity
division yields `NaN` or `±Infinity`), or `currentYear - year + 1 ≤ 0`
(square root of a non-positive number gives `1/0` or `NaN`). -/
noncomputable def scoreValue (cy mv views likes comments year : ℤ) : Option ℝ :=
  if views < 0 ∨ mv ≤ 0 ∨ cy - year + 1 ≤ 0 then none
  else some (adjustedER views likes comments * 0.65
    + 1 / Real.sqrt ((cy - year + 1 : ℤ) : ℝ) * 0.25
    + Real.logb 10 ((views + 1 : ℤ) : ℝ) / Real.logb 10 ((mv + 1 : ℤ) : ℝ) * 0.1)

open Classical in
/-- The two warning pushes of App.tsx (lines 131-133), in source order.  The
first condition is the float comparison `adjustedER < 1.5`: when
`views = -100` the division is by zero, so `adjustedER` is `+Infinity`
(positive numerator) or `NaN` (zero numerator) — neither is `< 1.5` — or
`-Infinity` (negative numerator), which is; for every other `views` the value
is finite and the real comparison is exact. -/
noncomputable def warningsOf (views likes comments : ℤ) : List String :=
  (if (views + 100 ≠ 0 ∧ adjustedER views likes comments < 1.5) ∨
      (views + 100 = 0 ∧ likes + comments + 100 < 0) then
    ["⚠️ Engagement muy bajo"]
   else []) ++
  (if views < 500 then ["⚠️ Vistas sospechosamente bajas"] else [])

/-- The per-record body of App.tsx `calculateScores` (lines 121-140). -/
noncomputable def scoreVideo (cy mv : ℤ) (v : VideoData) : VideoData :=
  { v with
    score := some (scoreValue cy mv v.views v.likes v.comments v.year)
    warnings := some (warningsOf v.views v.likes v.comments) }

/-- App.tsx `calculateScores` (lines 111-144) restricted to its effect on the
video list: abort on empty, otherwise a bulk map with the precomputed
catalog-wide maximum view count. -/
noncomputable def calculateScores (cy : ℤ) (videos : List VideoData) : List VideoData :=
  if videos.isEmpty then videos
  else videos.map (scoreVideo cy (maxViews videos))

/-- The manual-entry form state (`newVideo`, lines 35-41). -/
structure NewVideo where
  url : String
  views : ℤ
  likes : ℤ
  comments : ℤ
  year : ℤ

/-- App.tsx `addVideo` (lines 79-105) restricted to its effect on the video
list.  Note the code validates only `likes` and `comments` for negativity and
performs no duplicate check. -/
def addVideo (newId : String) (nv : NewVideo) (videos : List VideoData) : List VideoData :=
  if nv.url = "" ∨ validateYouTubeUrlB nv.url = false then videos
  else if nv.likes < 0 ∨ nv.comments < 0 then videos
  else
    videos ++
      [{ id := newId, url := nv.url, views := nv.views, likes := nv.likes,
         comments := nv.comments, year := nv.year }]

end Bayes

/-! ## A model of the JavaScript stable sort

`Array.prototype.sort` with a comparator is required (ES2019+) to be stable;
when the comparator induces a total preorder every stable sort produces the
same list, so an insertion sort processing elements left to right is a
faithful model.  `le a b` stands for "the comparator on `(a, b)` returns a
value ≤ 0", i.e. `a` may stay before `b`. -/

section SortModel

variable {α : Type} (le : α → α → Prop)

open Classical in
/-- Inserts `x` into `m` directly before the first element `y` with `le x y`. -/
noncomputable def insertSorted (x : α) : List α → List α
  | [] => [x]
  | y :: l => if le x y then x :: y :: l else y :: insertSorted x l

/-- Stable insertion sort: earlier input elements are inserted last, landing
before any comparator-equal element that came later. -/
noncomputable def sortJS : List α → List α
  | [] => []
  | x :: l => insertSorted le x (sortJS l)

theorem insertSorted_perm (x : α) : ∀ m : List α, (insertSorted le x m).Perm (x :: m) := by
  intro m
  induction m with
  | nil => simp [insertSorted]
  | cons y t ih =>
    by_cases h : le x y
    · simp [insertSorted, h]
    · simp only [insertSorted, if_neg h]
      exact (ih.cons y).trans (List.Perm.swap x y t)

theorem sortJS_perm : ∀ l : List α, (sortJS le l).Perm l := by
  intro l
  induction l with
  | nil => simp [sortJS]
  | cons x t ih => exact (insertSorted_perm le x (sortJS le t)).trans (ih.cons x)

theorem insertSorted_split (x : α) :
    ∀ m : List α, ∃ u w, m = u ++ w ∧ insertSorted le x m = u ++ x :: w ∧
      ∀ y ∈ u, ¬ le x y := by
  intro m
  induction m with
  | nil => exact ⟨[], [], by simp [insertSorted]⟩
  | cons y t ih =>
    by_cases h : le x y
    · exact ⟨[], y :: t, by simp [insertSorted, h]⟩
    · obtain ⟨u, w, hm, hins, hu⟩ := ih
      refine ⟨y :: u, w, by simp [hm], ?_, ?_⟩
      · simp [insertSorted, if_neg h, hins]
      · intro z hz
        rcases List.mem_cons.1 hz with rfl | hz
        · exact h
        · exact hu z hz

theorem sublist_insertSorted (x : α) {s m : List α} (h : s.Sublist m) :
    s.Sublist (insertSorted le x m) := by
  obtain ⟨u, w, hm, hins, -⟩ := insertSorted_split le x m
  rw [hins]
  subst hm
  exact h.trans (List.Sublist.append_left (List.sublist_cons_self x w) u)

theorem mem_insertSorted {x a : α} {m : List α} :
    a ∈ insertSorted le x m ↔ a ∈ x :: m :=
  (insertSorted_perm le x m).mem_iff

theorem pairwise_insertSorted {x : α} {m : List α}
    (htot : ∀ a ∈ x :: m, ∀ b ∈ x :: m, le a b ∨ le b a)
    (htrans : ∀ a ∈ x :: m, ∀ b ∈ x :: m, ∀ c ∈ x :: m, le a b → le b c → le a c)
    (hm : m.Pairwise le) : (insertSorted le x m).Pairwise le := by
  induction m with
  | nil => simp [insertSorted]
  | cons y t ih =>
    have hxm : x ∈ x :: y :: t := List.mem_cons_self x _
    have hym : y ∈ x :: y :: t := List.mem_cons.2 (Or.inr (List.mem_cons_self y t))
    have hsub : ∀ z, z ∈ x :: t → z ∈ x :: y :: t := by
      intro z hz
      rcases List.mem_cons.1 hz with rfl | hz
      · exact hxm
      · exact List.mem_cons.2 (Or.inr (List.mem_cons.2 (Or.inr hz)))
    by_cases h : le x y
    · simp only [insertSorted, if_pos h]
      refine List.Pairwise.cons ?_ hm
      intro z hz
      rcases List.mem_cons.1 hz with rfl | hz
      · exact h
      · exact htrans x hxm y hym z (hsub z (List.mem_cons.2 (Or.inr hz))) h
          ((List.pairwise_cons.1 hm).1 z hz)
    · simp only [insertSorted, if_neg h]
      refine List.Pairwise.cons ?_
        (ih (fun a ha b hb => htot a (hsub a ha) b (hsub b hb))
            (fun a ha b hb c hc => htrans a (hsub a ha) b (hsub b hb) c (hsub c hc))
            (List.pairwise_cons.1 hm).2)
      intro z hz
      rcases List.mem_cons.1 ((mem_insertSorted le).1 hz) with rfl | hz
      · rcases htot z hxm y hym with h' | h'
        · exact absurd h' h
        · exact h'
      · exact (List.pairwise_cons.1 hm).1 z hz

theorem pairwise_sortJS {l : List α}
    (htot : ∀ a ∈ l, ∀ b ∈ l, le a b ∨ le b a)
    (htrans : ∀ a ∈ l, ∀ b ∈ l, ∀ c ∈ l, le a b → le b c → le a c) :
    (sortJS le l).Pairwise le := by
  induction l with
  | nil => simp [sortJS]
  | cons x t ih =>
    have hmem : ∀ a, a ∈ x :: sortJS le t → a ∈ x :: t := by
      intro a ha
      rcases List.mem_cons.1 ha with rfl | ha
      · exact List.mem_cons_self a t
      · exact List.mem_cons.2 (Or.inr ((sortJS_perm le t).mem_iff.1 ha))
    refine pairwise_insertSorted le ?_ ?_ ?_
    · intro a ha b hb
      exact htot a (hmem a ha) b (hmem b hb)
    · intro a ha b hb c hc
      exact htrans a (hmem a ha) b (hmem b hb) c (hmem c hc)
    · refine ih ?_ ?_
      · intro a ha b hb
        exact htot a (by simp [ha]) b (by simp [hb])
      · intro a ha b hb c hc
        exact htrans a (by simp [ha]) b (by simp [hb]) c (by simp [hc])

/-- Stability of the insertion-sort model: a pair `a` before `b` in the input
whose comparator does not force a swap (`le a b`) stays in that order. -/
theorem pair_sublist_sortJS {a b : α} (hab : le a b) :
    ∀ {l : List α}, [a, b].Sublist l → [a, b].Sublist (sortJS le l) := by
  intro l
  induction l with
  | nil => intro h; simpa using h.length_le
  | cons x t ih =>
    intro h
    simp only [sortJS]
    rcases List.sublist_cons_iff.1 h with h' | ⟨r, hr, hrs⟩
    · exact sublist_insertSorted le x (ih h')
    · injection hr with h1 h2
      subst h1
      subst h2
      have hbt : b ∈ sortJS le t := (sortJS_perm le t).mem_iff.2 (List.singleton_sublist.1 hrs)
      obtain ⟨u, w, hsplit, hins, hu⟩ := insertSorted_split le a (sortJS le t)
      have hbw : b ∈ w := by
        have hmem : b ∈ u ++ w := hsplit ▸ hbt
        rcases List.mem_append.1 hmem with hbu | hbw
        · exact absurd hab (hu b hbu)
        · exact hbw
      rw [hins]
      have hsub : [a, b].Sublist (a :: w) :=
        List.cons_sublist_cons.2 (List.singleton_sublist.2 hbw)
      exact hsub.trans (List.sublist_append_right u (a :: w))

end SortModel

namespace Feqt

/-- JavaScript falsiness of `video.normalizedScore` in the sort comparator of
`filteredVideos` (line 391): the field is `undefined` or `0`. -/
def falsyNs (v : VideoData) : Prop :=
  v.normalizedScore = none ∨ v.normalizedScore = some 0

/-- The numeric reading of an optional score used once both operands are
known to be truthy. -/
noncomputable def nsVal (v : VideoData) : ℝ := v.normalizedScore.getD 0

open Classical in
/-- The comparator of `filteredVideos.sort` (lines 390-393): `0` when either
normalized score is falsy, otherwise the signed difference in the requested
direction. -/
noncomputable def comparatorVal (asc : Bool) (a b : VideoData) : ℝ :=
  if falsyNs a ∨ falsyNs b then 0
  else if asc then nsVal a - nsVal b else nsVal b - nsVal a

/-- "The comparator returns ≤ 0": `a` may stay before `b`. -/
noncomputable def sortLe (asc : Bool) (a b : VideoData) : Prop :=
  comparatorVal asc a b ≤ 0

/-- The sort step of `filteredVideos` (lines 390-393), modelled by the stable
platform sort with the source comparator. -/
noncomputable def sortVideos (asc : Bool) (l : List VideoData) : List VideoData :=
  sortJS (sortLe asc) l

/-- The filter predicate of `filteredVideos` (lines 382-389): a record with a
falsy `score` is always kept, otherwise the two optional filters apply. -/
def keepVideo (fle flv : Bool) (v : VideoData) : Prop :=
  (v.score = none ∨ v.score = some 0) ∨
  (¬(fle = true ∧ (likesFrac v.likes v.views < 1/100 ∨
                   commentsFrac v.comments v.views < 1/1000)) ∧
   ¬(flv = true ∧ v.views < 500))

open Classical in
/-- `filteredVideos` (lines 381-393): filter, then stable sort. -/
noncomputable def filteredVideos (fle flv asc : Bool) (videos : List VideoData) :
    List VideoData :=
  sortVideos asc (videos.filter (fun v => decide (keepVideo fle flv v)))

end Feqt

/-! ## JSON values (import/export exchange format) -/

/-- Parsed JSON values.  Numbers are `ℚ`: every JavaScript float written to
or read from a JSON file denotes a rational number. -/
inductive Json where
  | null : Json
  | bool (b : Bool) : Json
  | num (q : ℚ) : Json
  | str (s : String) : Json
  | arr (elems : List Json) : Json
  | obj (fields : List (String × Json)) : Json

/-- First-match association-list lookup for JSON object fields. -/
def lookupField : List (String × Json) → String → Option Json
  | [], _ => none
  | (k', v) :: t, k => if k' = k then some v else lookupField t k

/-- JavaScript property access `j.k` on a parsed value: `none` (i.e.
`undefined`) when `j` is not an object or lacks the key. -/
def getField : Json → String → Option Json
  | .obj fields, k => lookupField fields k
  | _, _ => none

/-- JavaScript truthiness of a possibly-absent (`undefined`) JSON value. -/
def truthy : Option Json → Bool
  | none => false
  | some .null => false
  | some (.bool b) => b
  | some (.num q) => decide (q ≠ 0)
  | some (.str s) => decide (s ≠ "")
  | some (.arr _) => true
  | some (.obj _) => true

/-- `Array.isArray` on a possibly-absent value. -/
def isArrayJson : Option Json → Bool
  | some (.arr _) => true
  | _ => false

/-! ## Serialization round trip — `src/src/App.tsx` export/import -/

namespace Ser

/-- The value of the optional `score` property of an App.tsx record as seen
by serialization.  JavaScript distinguishes an absent property (`undefined`,
omitted by `JSON.stringify`), a non-finite number (`NaN`/`Infinity` — a
reachable score per the C2 bug — which `JSON.stringify` writes as `null`),
the value `null` itself (what importing such a file restores into the
record), and a finite number (every finite double is rational). -/
inductive JsNum where
  | undef : JsNum
  | nonfinite : JsNum
  | jsNull : JsNum
  | num (q : ℚ) : JsNum
deriving DecidableEq

/-- Serialized view of an App.tsx `VideoData` record.  The raw numeric fields
hold whatever (finite) JavaScript numbers the record holds; the computed
`score` can additionally be non-finite or `null`, and `warnings` is optional
exactly as in the interface. -/
structure SVideo where
  id : String
  url : String
  views : ℚ
  likes : ℚ
  comments : ℚ
  year : ℚ
  score : JsNum := .undef
  warnings : Option (List String) := none
deriving DecidableEq

/-- `JSON.stringify` of one record: present fields are emitted, `undefined`
optional fields are omitted. -/
def encodeVideo (v : SVideo) : Json :=
  .obj ([("id", .str v.id), ("url", .str v.url), ("views", .num v.views),
         ("likes", .num v.likes), ("comments", .num v.comments),
         ("year", .num v.year)] ++
    (match v.score with
     | .undef => []
     | .nonfinite => [("score", Json.null)]
     | .jsNull => [("score", Json.null)]
     | .num s => [("score", Json.num s)]) ++
    (match v.warnings with
     | some w => [("warnings", .arr (w.map Json.str))]
     | none => []))

/-- Reads a JSON array of strings back. -/
def decodeStrings : List Json → Option (List String)
  | [] => some []
  | Json.str s :: t => (decodeStrings t).map (fun w => s :: w)
  | _ :: _ => none

/-- Reads one serialized record back.  This is the inverse of `encodeVideo`;
it is used to state that the raw JSON objects restored by an import denote
exactly the records that were exported. -/
def decodeVideo (j : Json) : Option SVideo :=
  match getField j "id", getField j "url", getField j "views", getField j "likes",
      getField j "comments", getField j "year" with
  | some (.str i), some (.str u), some (.num vw), some (.num lk),
      some (.num cm), some (.num yr) =>
    some { id := i, url := u, views := vw, likes := lk, comments := cm, year := yr,
           score :=
             match getField j "score" with
             | some (.num s) => JsNum.num s
             | some .null => JsNum.jsNull
             | _ => JsNum.undef,
           warnings :=
             match getField j "warnings" with
             | some (.arr w) => decodeStrings w
             | _ => none }
  | _, _, _, _, _, _ => none

/-- Reads a serialized record list back, failing if any element fails. -/
def decodeVideos : List Json → Option (List SVideo)
  | [] => some []
  | j :: t => (decodeVideo j).bind (fun v => (decodeVideos t).map (fun vs => v :: vs))

/-- The catalog-state slice read by `exportAnalysis`. -/
structure SState where
  videos : List SVideo
  showResults : Bool
  saveName : String

/-- `exportName = saveName.trim() || 'Análisis de Videos'` (line 193). -/
def exportName (st : SState) : String :=
  if jsTrim st.saveName = "" then "Análisis de Videos" else jsTrim st.saveName

/-- `exportAnalysis` of App.tsx (lines 187-214): `none` models the aborted
empty-catalog branch; otherwise the JSON written to the downloaded file. -/
def exportAnalysis (exportDate : String) (st : SState) : Option Json :=
  if st.videos.isEmpty then none
  else
    some (.obj [("version", .str "1.0"), ("exportDate", .str exportDate),
      ("analysis", .obj
        [("name", .str (exportName st)),
         ("videos", .arr (st.videos.map encodeVideo)),
         ("showResults", .bool st.showResults)])])

/-- App.tsx `handleFileUpload` (lines 222-249) on an already-parsed file:
`none` models the rejected file (alert, no state change); on success the
three restored values — the raw video array (`setVideos`), the raw
`showResults` value and the raw `name` value. -/
def handleFileUpload (j : Json) : Option (List Json × Option Json × Option Json) :=
  match getField j "analysis" with
  | some a =>
    if truthy (getField j "version") && truthy (some a) then
      match getField a "videos" with
      | some (.arr vs) => some (vs, getField a "showResults", getField a "name")
      | _ => none
    else none
  | none => none

end Ser

/-! ## Batch import — `src/unnamed/part_000` `handleFileUpload` -/

namespace Imp

/-- One selected file: its name and the result of `JSON.parse` on its text
(`none` when parsing threw). -/
structure ImpFile where
  name : String
  parsed : Option Json

/-- One imported history entry (part_000 lines 344-350): the raw JSON
`name`/`videos`/`showResults` values are stored as-is. -/
structure Entry where
  id : String
  name : Json
  date : String
  videos : List Json
  showResults : Option Json

/-- `file.name.replace(/\.json$/, '')`. -/
def stripJsonExt (s : String) : String :=
  if (".json".toList).isSuffixOf s.toList
  then ⟨s.toList.take (s.toList.length - 5)⟩ else s

/-- The part_000 validation (line 338): the file is accepted when `version`
is truthy, `analysis` is truthy, and `analysis.videos` is an array. -/
def validFile (j : Json) : Bool :=
  truthy (getField j "version") && truthy (getField j "analysis") &&
    isArrayJson ((getField j "analysis").bind (fun a => getField a "videos"))

/-- The `analysis.videos` array of a valid file. -/
def videosOf (j : Json) : List Json :=
  match (getField j "analysis").bind (fun a => getField a "videos") with
  | some (.arr vs) => vs
  | _ => []

/-- `importedData.analysis.name || file.name.replace(/\.json$/, '') || default`
(line 342). -/
def entryName (dflt : String) (f : ImpFile) (j : Json) : Json :=
  let n := (getField j "analysis").bind (fun a => getField a "name")
  if truthy n then n.getD .null
  else if stripJsonExt f.name ≠ "" then .str (stripJsonExt f.name)
  else .str dflt

/-- One step of the batch loop (lines 332-359): a parse failure or invalid
file appends an error report; a valid file appends a history entry whose id
appends the number of entries imported so far in this batch. -/
def processFile (now date dflt : String) (acc : List Entry × List String)
    (f : ImpFile) : List Entry × List String :=
  match f.parsed with
  | none => (acc.1, acc.2 ++ ["Error al procesar " ++ f.name])
  | some j =>
    if validFile j then
      (acc.1 ++ [{ id := now ++ toString acc.1.length, name := entryName dflt f j,
                   date := date, videos := videosOf j,
                   showResults := (getField j "analysis").bind
                     (fun a => getField a "showResults") }],
       acc.2)
    else (acc.1, acc.2 ++ ["Error al procesar " ++ f.name])

/-- The whole batch loop over the selected files. -/
def processFiles (now date dflt : String) (files : List ImpFile) :
    List Entry × List String :=
  files.foldl (processFile now date dflt) ([], [])

/-- Imported entries of a batch. -/
def entriesOf (now date dflt : String) (files : List ImpFile) : List Entry :=
  (processFiles now date dflt files).1

/-- Error reports of a batch. -/
def reportsOf (now date dflt : String) (files : List ImpFile) : List String :=
  (processFiles now date dflt files).2

/-- part_000 `handleFileUpload` (lines 325-379): the active catalog (of
arbitrary type — the function never touches it), the history extended by the
imported entries, and the collected error reports. -/
def handleFileUpload {σ : Type} (now date dflt : String) (files : List ImpFile)
    (videos : σ) (history : List Entry) : σ × List Entry × List String :=
  (videos, history ++ entriesOf now date dflt files, reportsOf now date dflt files)

end Imp

/-! ## Specification-side scoring formulas (for the refinement claim C1) -/

namespace Spec

/-- Spec formula: `R = exp(-0.005 * days_since_publish)`. -/
noncomputable def recency (d : ℤ) : ℝ := Real.exp (-0.005 * (d : ℝ))

/-- Spec formula: `E = 0.7 * (likes/views) + 0.3 * (comments/views)` with
`views` floored to 1. -/
noncomputable def engagement (likes comments views : ℕ) : ℝ :=
  0.7 * ((likes : ℝ) / ((max views 1 : ℕ) : ℝ)) +
    0.3 * ((comments : ℝ) / ((max views 1 : ℕ) : ℝ))

/-- Spec formula: `V = min(log10(views/days_since_publish + 1), 6)`. -/
noncomputable def virality (views : ℕ) (d : ℤ) : ℝ :=
  min (Real.logb 10 ((views : ℝ) / (d : ℝ) + 1)) 6

/-- Spec formula: composite base with the recency toggle. -/
noncomputable def base (inc : Bool) (likes comments views : ℕ) (d : ℤ) : ℝ :=
  if inc then
    0.4 * recency d + 0.5 * engagement likes comments views + 0.1 * virality views d
  else 0.7 * engagement likes comments views + 0.3 * virality views d

/-- Spec formula: normalized score `base / max_attainable * 100` with max
`1.5` (with recency) or `2.5` (without). -/
noncomputable def normalized (inc : Bool) (likes comments views : ℕ) (d : ℤ) : ℝ :=
  base inc likes comments views d / (if inc then 1.5 else 2.5) * 100

end Spec

/-! ## Numeric bounds for the worked scoring example -/

theorem logb_ten_lt_of_pow_lt {y : ℝ} (hy : 0 < y) (p q : ℕ) (hq : 0 < q)
    (h : y ^ q < (10:ℝ) ^ p) : Real.logb 10 y < (p : ℝ) / q := by
  rw [Real.logb, div_lt_div_iff₀ (Real.log_pos (by norm_num)) (by exact_mod_cast hq)]
  calc Real.log y * q = Real.log (y ^ q) := by rw [Real.log_pow]; ring
    _ < Real.log ((10:ℝ) ^ p) := Real.log_lt_log (pow_pos hy q) h
    _ = p * Real.log 10 := by rw [Real.log_pow]

theorem lt_logb_ten_of_pow_lt {y : ℝ} (p q : ℕ) (hq : 0 < q)
    (h : (10:ℝ) ^ p < y ^ q) : (p : ℝ) / q < Real.logb 10 y := by
  rw [Real.logb, div_lt_div_iff₀ (by exact_mod_cast hq) (Real.log_pos (by norm_num))]
  calc (p : ℝ) * Real.log 10 = Real.log ((10:ℝ) ^ p) := by rw [Real.log_pow]
    _ < Real.log (y ^ q) := Real.log_lt_log (pow_pos (by norm_num) p) h
    _ = Real.log y * q := by rw [Real.log_pow]; ring

theorem logb_1003_ub : Real.logb 10 (1003/3) < (1515 : ℝ) / 600 := by
  refine logb_ten_lt_of_pow_lt (by norm_num) 1515 600 (by norm_num) ?_
  rw [div_pow, div_lt_iff₀ (by positivity)]
  norm_num

theorem logb_1003_lb : (1514 : ℝ) / 600 < Real.logb 10 (1003/3) := by
  refine lt_logb_ten_of_pow_lt 1514 600 (by norm_num) ?_
  rw [div_pow, lt_div_iff₀ (by positivity)]
  norm_num

theorem exp_315_bounds :
    (1.161786 : ℝ) ≤ Real.exp (3 / 20) ∧ Real.exp (3 / 20) ≤ 1.161839 := by
  have habs : |(3 / 20 : ℝ)| ≤ 1 := by
    rw [abs_of_nonneg (by norm_num : (0:ℝ) ≤ 3 / 20)]; norm_num
  have h := @Real.exp_bound (3 / 20) habs 4 (by norm_num)
  rw [abs_of_nonneg (by norm_num : (0:ℝ) ≤ 3 / 20), abs_le] at h
  simp only [Finset.sum_range_succ, Finset.sum_range_zero, Nat.factorial] at h
  norm_num at h
  constructor <;> linarith [h.1, h.2]

theorem exp_neg_315_bounds :
    (0.860703 : ℝ) ≤ Real.exp (-(3/20)) ∧ Real.exp (-(3/20)) ≤ 0.860747 := by
  have h := exp_315_bounds
  have hpos : (0:ℝ) < Real.exp (3/20) := Real.exp_pos _
  have hinv : (0:ℝ) < (Real.exp (3/20))⁻¹ := inv_pos.2 hpos
  have hmul : Real.exp (3/20) * (Real.exp (3/20))⁻¹ = 1 := mul_inv_cancel₀ (ne_of_gt hpos)
  rw [Real.exp_neg]
  constructor <;> nlinarith [h.1, h.2, hpos, hinv, hmul]

/-- The worked example of the specification: views 10000, likes 100,
comments 10, 30 days since publish. -/
def exampleVideo : Feqt.VideoData :=
  { id := "v1", url := "https://www.youtube.com/watch?v=abcdefghijk",
    views := 10000, likes := 100, comments := 10, ageDays := 30 }

theorem recencyR_30_bounds :
    (0.860703 : ℝ) ≤ Feqt.recencyR 30 ∧ Feqt.recencyR 30 ≤ 0.860747 := by
  have h := exp_neg_315_bounds
  have heq : Feqt.recencyR 30 = Real.exp (-(3/20)) := by
    rw [Feqt.recencyR, Feqt.RECENCY_DECAY]
    norm_num
  rw [heq]
  exact h

theorem viralityV_example_bounds :
    (1514:ℝ)/600 ≤ Feqt.viralityV 10000 30 ∧ Feqt.viralityV 10000 30 ≤ 1515/600 := by
  have harg : ((10000 : ℕ) : ℝ) / (((30 : ℤ)) : ℝ) + 1 = 1003/3 := by norm_num
  have hmin : Feqt.viralityV 10000 30 = Real.logb 10 (1003/3) := by
    rw [Feqt.viralityV, Feqt.VIRALITY_MAX, harg]
    exact min_eq_left (le_trans logb_1003_ub.le (by norm_num))
  rw [hmin]
  exact ⟨logb_1003_lb.le, logb_1003_ub.le⟩

theorem engagementE_example : Feqt.engagementE 100 10 10000 = 73/10000 := by
  rw [Feqt.engagementE, Feqt.likesFrac, Feqt.commentsFrac, Feqt.jsOr1]
  norm_num

/-- Concrete evaluation of the example normalized score, shared by the C1
results. -/
theorem example_ns_bounds :
    40.01 < Feqt.nsVal (Feqt.scoreVideo true exampleVideo) ∧
      Feqt.nsVal (Feqt.scoreVideo true exampleVideo) < 40.035 := by
  have hr := recencyR_30_bounds
  have hv := viralityV_example_bounds
  have heq : Feqt.nsVal (Feqt.scoreVideo true exampleVideo) =
      (Feqt.recencyR 30 * 0.4 + (73/10000) * 0.5 + Feqt.viralityV 10000 30 * 0.1)
        / 1.5 * 100 := by
    have hd : Feqt.daysFloor (30 : ℤ) = 30 := by
      rw [Feqt.daysFloor]; norm_num
    simp only [Feqt.nsVal, Feqt.scoreVideo, exampleVideo, hd, Feqt.baseScore,
      Feqt.normScore, Feqt.FEQT_MAX_WITH_RECENCY, engagementE_example, if_true,
      Option.getD_some]
  have h2 : (Feqt.recencyR 30 * 0.4 + 73 / 10000 * 0.5 + Feqt.viralityV 10000 30 * 0.1)
      / 1.5 * 100 =
      Feqt.recencyR 30 * (80/3) + 73/300 + Feqt.viralityV 10000 30 * (20/3) := by
    ring
  rw [heq, h2]
  constructor <;> linarith [hr.1, hr.2, hv.1, hv.2]

/-! ## Bridging lemmas between the code and the spec formulas -/

theorem jsOr1_eq_max (n : ℕ) : Feqt.jsOr1 n = max n 1 := by
  unfold Feqt.jsOr1
  split <;> omega

theorem daysFloor_eq {d : ℤ} (h : 1 ≤ d) : Feqt.daysFloor d = d := by
  rw [Feqt.daysFloor]
  omega

theorem recencyR_eq_spec (d : ℤ) : Feqt.recencyR d = Spec.recency d := by
  rw [Feqt.recencyR, Spec.recency, Feqt.RECENCY_DECAY]

theorem viralityV_eq_spec (w : ℕ) (d : ℤ) : Feqt.viralityV w d = Spec.virality w d := by
  rw [Feqt.viralityV, Spec.virality, Feqt.VIRALITY_MAX]

theorem engagementE_eq_spec (l c w : ℕ) :
    Feqt.engagementE l c w = Spec.engagement l c w := by
  rw [Feqt.engagementE, Spec.engagement, Feqt.likesFrac, Feqt.commentsFrac, jsOr1_eq_max]
  push_cast
  ring

theorem baseScore_eq_spec (inc : Bool) (l c w : ℕ) (d : ℤ) :
    Feqt.baseScore inc (Feqt.recencyR d) (Feqt.engagementE l c w) (Feqt.viralityV w d) =
      Spec.base inc l c w d := by
  cases inc <;>
    simp only [Feqt.baseScore, Spec.base, recencyR_eq_spec, viralityV_eq_spec,
      engagementE_eq_spec, if_true, if_false, Bool.false_eq_true, ite_false, ite_true] <;>
    ring

theorem normScore_eq_spec (inc : Bool) (l c w : ℕ) (d : ℤ) :
    Feqt.normScore inc
        (Feqt.baseScore inc (Feqt.recencyR d) (Feqt.engagementE l c w) (Feqt.viralityV w d)) =
      Spec.normalized inc l c w d := by
  cases inc <;>
    simp only [Feqt.normScore, Spec.normalized, baseScore_eq_spec,
      Feqt.FEQT_MAX_WITH_RECENCY, Feqt.FEQT_MAX_WITHOUT_RECENCY, Bool.false_eq_true,
      ite_false, ite_true]

/-! ## Claim C1 -/

/-- Claim C1 (amended): for every record with non-negative integer counters
and an age measure of at least one day, the latest scoring policy computes
exactly the spec formulas for R, E, V, the composite base and the normalized
score; at the worked example (views 10000, likes 100, comments 10, 30 days,
recency included) the normalized score is approximately 40.02 — strictly
between 40.01 and 40.035 — not 40.08. -/
theorem c1_scoring_formulas_and_example :
    (∀ (inc : Bool) (v : Feqt.VideoData), 1 ≤ v.ageDays →
      (Feqt.scoreVideo inc v).recencyFactor = some (Spec.recency v.ageDays) ∧
      (Feqt.scoreVideo inc v).engagementFactor =
        some (Spec.engagement v.likes v.comments v.views) ∧
      (Feqt.scoreVideo inc v).viralityFactor = some (Spec.virality v.views v.ageDays) ∧
      (Feqt.scoreVideo inc v).score =
        some (Spec.base inc v.likes v.comments v.views v.ageDays) ∧
      (Feqt.scoreVideo inc v).normalizedScore =
        some (Spec.normalized inc v.likes v.comments v.views v.ageDays)) ∧
    40.01 < Feqt.nsVal (Feqt.scoreVideo true exampleVideo) ∧
    Feqt.nsVal (Feqt.scoreVideo true exampleVideo) < 40.035 := by
  refine ⟨?_, example_ns_bounds.1, example_ns_bounds.2⟩
  intro inc v hd
  have hfloor : Feqt.daysFloor v.ageDays = v.ageDays := daysFloor_eq hd
  simp only [Feqt.scoreVideo, hfloor]
  exact ⟨congrArg some (recencyR_eq_spec _),
         congrArg some (engagementE_eq_spec _ _ _),
         congrArg some (viralityV_eq_spec _ _),
         congrArg some (baseScore_eq_spec _ _ _ _ _),
         congrArg some (normScore_eq_spec _ _ _ _ _)⟩

/-- Witness for C1 at the worked example input. -/
theorem c1_scoring_formulas_and_example_witness :
    (Feqt.scoreVideo true exampleVideo).normalizedScore =
      some (Spec.normalized true 100 10 10000 30) :=
  (c1_scoring_formulas_and_example.1 true exampleVideo (by decide)).2.2.2.2

/-- Counterexample to C1 as stated: at the worked example the normalized
score is not approximately 40.08 (it differs from 40.08 by more than 0.04;
the true value is ≈ 40.02). -/
theorem c1_example_score_not_4008 :
    ¬ |Feqt.nsVal (Feqt.scoreVideo true exampleVideo) - 40.08| < 1/25 := by
  have h := example_ns_bounds
  intro hcon
  rw [abs_lt] at hcon
  linarith [h.2, hcon.1]

/-! ## Claim C8 -/

/-- Claim C8 (amended): a record with `views = 0` never faults — the
denominator is floored to 1, so the ratio terms evaluate to `likes/1` and
`comments/1`; in particular they are zero (and the engagement factor is
zero) exactly when the like and comment counters are themselves zero. -/
theorem c8_zero_views_floored (inc : Bool) (v : Feqt.VideoData) (hv : v.views = 0) :
    Feqt.likesFrac v.likes v.views = v.likes ∧
    Feqt.commentsFrac v.comments v.views = v.comments ∧
    (v.likes = 0 → v.comments = 0 →
      (Feqt.scoreVideo inc v).engagementFactor = some 0) := by
  refine ⟨?_, ?_, ?_⟩
  · rw [Feqt.likesFrac, hv, Feqt.jsOr1]
    norm_num
  · rw [Feqt.commentsFrac, hv, Feqt.jsOr1]
    norm_num
  · intro hl hc
    simp only [Feqt.scoreVideo, Option.some.injEq]
    rw [Feqt.engagementE, Feqt.likesFrac, Feqt.commentsFrac, hv, hl, hc, Feqt.jsOr1]
    norm_num

/-- Witness for C8 at a concrete zero-view record. -/
theorem c8_zero_views_floored_witness :
    (Feqt.scoreVideo true
      { id := "w8", url := "u", views := 0, likes := 0, comments := 0,
        ageDays := 3 }).engagementFactor = some 0 :=
  (c8_zero_views_floored true _ rfl).2.2 rfl rfl

/-- Counterexample to C8 as stated: a zero-view record with one like has
like-ratio term `1/1 = 1`, so its engagement factor is `0.7`, not `0`. -/
theorem c8_zero_views_ratio_not_zero :
    (Feqt.scoreVideo true
      { id := "z8", url := "u", views := 0, likes := 1, comments := 0,
        ageDays := 3 }).engagementFactor = some 0.7 ∧ (0.7 : ℝ) ≠ 0 := by
  constructor
  · simp only [Feqt.scoreVideo, Option.some.injEq]
    rw [Feqt.engagementE, Feqt.likesFrac, Feqt.commentsFrac, Feqt.jsOr1]
    norm_num
  · norm_num

/-! ## Claim C3 -/

/-- Claim C3: the warnings list produced by the latest policy is empty iff
all three threshold conditions are false, and the numeric score of a record
depends only on its counters and age — records with equal counters and age
get equal scores regardless of which warnings fire. -/
theorem c3_warnings_iff_and_score_independent :
    (∀ (inc : Bool) (v : Feqt.VideoData),
      (Feqt.scoreVideo inc v).warnings = some [] ↔
        ¬(Feqt.likesFrac v.likes v.views < 1/100) ∧
        ¬(Feqt.commentsFrac v.comments v.views < 1/1000) ∧
        ¬((v.views : ℚ) / ((Feqt.daysFloor v.ageDays : ℤ) : ℚ) < 100)) ∧
    (∀ (inc : Bool) (v w : Feqt.VideoData), v.views = w.views → v.likes = w.likes →
      v.comments = w.comments → v.ageDays = w.ageDays →
      (Feqt.scoreVideo inc v).score = (Feqt.scoreVideo inc w).score ∧
      (Feqt.scoreVideo inc v).normalizedScore = (Feqt.scoreVideo inc w).normalizedScore) := by
  constructor
  · intro inc v
    simp only [Feqt.scoreVideo, Option.some.injEq, Feqt.warningsOf]
    split_ifs with h1 h2 h3 <;> simp_all
  · intro inc v w h1 h2 h3 h4
    refine ⟨?_, ?_⟩ <;> simp only [Feqt.scoreVideo, h1, h2, h3, h4]

/-- Witness for C3: two concrete records with equal counters and age but
different ids receive equal scores. -/
theorem c3_witness :
    (Feqt.scoreVideo true
      { id := "x3", url := "u1", views := 50, likes := 1, comments := 0,
        ageDays := 2 }).score =
    (Feqt.scoreVideo true
      { id := "y3", url := "u2", views := 50, likes := 1, comments := 0,
        ageDays := 2 }).score :=
  (c3_warnings_iff_and_score_independent.2 true _ _ rfl rfl rfl rfl).1

/-! ## Claim C10 -/

/-- The raw (non-derived) fields of a part_000 record. -/
def Feqt.rawOf (v : Feqt.VideoData) : String × String × ℕ × ℕ × ℕ × ℤ :=
  (v.id, v.url, v.views, v.likes, v.comments, v.ageDays)

/-- The raw (non-derived) fields of an App.tsx record. -/
def Bayes.rawOf (v : Bayes.VideoData) : String × String × ℤ × ℤ × ℤ × ℤ :=
  (v.id, v.url, v.views, v.likes, v.comments, v.year)

/-- Claim C10: the compute-scores operation preserves the catalog length and
record order and leaves every raw field unchanged, in both revisions. -/
theorem c10_compute_preserves_raw (inc : Bool) (st : Feqt.AppState) (cy : ℤ)
    (l : List Bayes.VideoData) :
    ((Feqt.calculateScores inc st).videos.map Feqt.rawOf = st.videos.map Feqt.rawOf ∧
     (Feqt.calculateScores inc st).videos.length = st.videos.length) ∧
    ((Bayes.calculateScores cy l).map Bayes.rawOf = l.map Bayes.rawOf ∧
     (Bayes.calculateScores cy l).length = l.length) := by
  have hf : ∀ v, Feqt.rawOf (Feqt.scoreVideo inc v) = Feqt.rawOf v := fun _ => rfl
  have hb : ∀ m v, Bayes.rawOf (Bayes.scoreVideo cy m v) = Bayes.rawOf v := fun _ _ => rfl
  constructor
  · rw [Feqt.calculateScores]
    split
    · exact ⟨rfl, rfl⟩
    · constructor
      · simp only [List.map_map]
        exact List.map_congr_left (fun v _ => hf v)
      · simp
  · rw [Bayes.calculateScores]
    split
    · exact ⟨rfl, rfl⟩
    · constructor
      · simp only [List.map_map]
        exact List.map_congr_left (fun v _ => hb _ v)
      · simp

/-! ## Claim C9 -/

/-- The all-or-none property of the six derived fields of a part_000
record. -/
def Feqt.allOrNone (v : Feqt.VideoData) : Prop :=
  (v.score = none ∧ v.normalizedScore = none ∧ v.recencyFactor = none ∧
   v.engagementFactor = none ∧ v.viralityFactor = none ∧ v.warnings = none) ∨
  (v.score.isSome = true ∧ v.normalizedScore.isSome = true ∧
   v.recencyFactor.isSome = true ∧ v.engagementFactor.isSome = true ∧
   v.viralityFactor.isSome = true ∧ v.warnings.isSome = true)

/-- Claim C9: in every state reachable through add, remove, compute scores
and clear, every record has its derived fields either all present or all
absent. -/
theorem addVideo_eq (i : String) (f : Option Feqt.Fetched) (u : String)
    (st : Feqt.AppState) :
    Feqt.addVideo i f u st =
      (if u = "" ∨ validateYouTubeUrl u = false then st
       else if st.videos.any (fun v => cleanUrl v.url == cleanUrl u) then st
       else
         match getVideoId u with
         | none => st
         | some _ =>
           match f with
           | none => st
           | some fd =>
             { st with
               videos := st.videos ++
                 [{ id := i, url := cleanUrl u, views := fd.views, likes := fd.likes,
                    comments := fd.comments, ageDays := fd.ageDays }] }) := rfl

theorem addVideo_videos (i : String) (f : Option Feqt.Fetched) (u : String)
    (st : Feqt.AppState) :
    (Feqt.addVideo i f u st).videos = st.videos ∨
    ∃ fd : Feqt.Fetched, (Feqt.addVideo i f u st).videos = st.videos ++
      [{ id := i, url := cleanUrl u, views := fd.views, likes := fd.likes,
         comments := fd.comments, ageDays := fd.ageDays }] := by
  rw [addVideo_eq]
  by_cases h1 : u = "" ∨ validateYouTubeUrl u = false
  · simp [h1]
  · by_cases h2 : (st.videos.any fun v => cleanUrl v.url == cleanUrl u) = true
    · simp [h1, h2]
    · rcases hg : getVideoId u with - | gid
      · cases f <;> simp [h1, h2, hg]
      · cases f with
        | none => simp [h1, h2, hg]
        | some fd =>
          refine Or.inr ⟨fd, ?_⟩
          simp [h1, h2, hg]

/-- Claim C9: in every state reachable through add, remove, compute scores
and clear, every record has its derived fields either all present or all
absent. -/
theorem c9_derived_all_or_none (st : Feqt.AppState) (h : Feqt.Reachable st) :
    ∀ v ∈ st.videos, Feqt.allOrNone v := by
  induction h with
  | init => intro v hv; simp at hv
  | add i f u h ih =>
    intro v hv
    rcases addVideo_videos i f u _ with heq | ⟨fd, heq⟩ <;> rw [heq] at hv
    · exact ih v hv
    · rcases List.mem_append.1 hv with hv | hv
      · exact ih v hv
      · rcases List.mem_singleton.1 hv with rfl
        exact Or.inl ⟨rfl, rfl, rfl, rfl, rfl, rfl⟩
  | remove i h ih =>
    intro v hv
    rw [Feqt.removeVideo] at hv
    exact ih v (List.mem_of_mem_filter hv)
  | compute inc h ih =>
    intro v hv
    rw [Feqt.calculateScores] at hv
    split at hv
    · exact ih v hv
    · rcases List.mem_map.1 hv with ⟨w, _, rfl⟩
      exact Or.inr ⟨rfl, rfl, rfl, rfl, rfl, rfl⟩
  | clear c h ih =>
    intro v hv
    rw [Feqt.clearCurrentAnalysis] at hv
    split at hv
    · simp at hv
    · exact ih v hv

/-- Witness for C9: the one record of a concrete reachable state (one
successful add followed by a compute pass) has all derived fields present or
all absent. -/
theorem c9_derived_all_or_none_witness :
    Feqt.allOrNone (Feqt.scoreVideo true
      { id := "1", url := cleanUrl "https://www.youtube.com/watch?v=abcdefghijk",
        views := 10, likes := 2, comments := 1, ageDays := 5 }) :=
  c9_derived_all_or_none
    (Feqt.calculateScores true
      (Feqt.addVideo "1" (some ⟨10, 2, 1, 5⟩)
        "https://www.youtube.com/watch?v=abcdefghijk" ⟨[], false, [], ""⟩))
    (Feqt.Reachable.compute true (Feqt.Reachable.add _ _ _ Feqt.Reachable.init))
    _ (by
      show _ ∈ (Feqt.calculateScores true
        (Feqt.addVideo "1" (some ⟨10, 2, 1, 5⟩)
          "https://www.youtube.com/watch?v=abcdefghijk" ⟨[], false, [], ""⟩)).videos
      exact List.mem_singleton.2 rfl)

/-! ## Claim C2 -/

/-- Claim C2 fails on the bayesian policy: on a catalog whose only record has
zero views (counters non-negative, age measure 1) the computed score is
non-finite — the popularity term divides `log10(0+1) = 0` by
`log10(maxViews+1) = log10(1) = 0`, which is `NaN` in the source. -/
theorem c2_bayes_zero_views_score_non_finite :
    ((Bayes.calculateScores 2024
        [{ id := "z2", url := "u", views := 0, likes := 0, comments := 0,
           year := 2024 }]).map (fun v => v.score)) = [some none] := by
  simp [Bayes.calculateScores, Bayes.scoreVideo, Bayes.scoreValue, Bayes.maxViews]

/-! ## Claim C4 -/

theorem decodeStrings_map_str (w : List String) :
    Ser.decodeStrings (w.map Json.str) = some w := by
  induction w with
  | nil => rfl
  | cons a t ih => simp [Ser.decodeStrings, ih]

theorem decode_encode (v : Ser.SVideo) (hs : v.score ≠ Ser.JsNum.nonfinite) :
    Ser.decodeVideo (Ser.encodeVideo v) = some v := by
  rcases v with ⟨i, u, vw, lk, cm, yr, sc, wn⟩
  cases sc <;> cases wn <;>
    first
      | exact absurd rfl hs
      | simp [Ser.encodeVideo, Ser.decodeVideo, getField, lookupField,
          decodeStrings_map_str]

theorem decode_encode_videos (l : List Ser.SVideo)
    (hl : ∀ v ∈ l, v.score ≠ Ser.JsNum.nonfinite) :
    Ser.decodeVideos (l.map Ser.encodeVideo) = some l := by
  induction l with
  | nil => rfl
  | cons a t ih =>
    simp [Ser.decodeVideos,
      decode_encode a (hl a (List.mem_cons_self a t)),
      ih (fun v hv => hl v (List.mem_cons.2 (Or.inr hv)))]

/-- Claim C4 (amended): for every non-empty catalog state none of whose
records holds a non-finite score, exporting produces a file of the documented
shape and importing it restores exactly the exported video records (the
imported raw JSON objects decode to the original record list) and the
`showResults` flag.  (A record with a `NaN`/`Infinity` score — reachable per
the C2 bug — is serialized as `null` and does not round-trip.) -/
theorem c4_export_import_round_trip (d : String) (st : Ser.SState)
    (h : st.videos ≠ [])
    (hfin : ∀ v ∈ st.videos, v.score ≠ Ser.JsNum.nonfinite) :
    Ser.exportAnalysis d st =
      some (Json.obj [("version", .str "1.0"), ("exportDate", .str d),
        ("analysis", Json.obj
          [("name", .str (Ser.exportName st)),
           ("videos", .arr (st.videos.map Ser.encodeVideo)),
           ("showResults", .bool st.showResults)])]) ∧
    (Ser.exportAnalysis d st).bind (fun j => Ser.handleFileUpload j) =
      some (st.videos.map Ser.encodeVideo, some (.bool st.showResults),
            some (.str (Ser.exportName st))) ∧
    Ser.decodeVideos (st.videos.map Ser.encodeVideo) = some st.videos := by
  have hne : st.videos.isEmpty = false := by
    simpa [List.isEmpty_iff] using h
  refine ⟨?_, ?_, decode_encode_videos st.videos hfin⟩
  · simp [Ser.exportAnalysis, hne]
  · simp [Ser.exportAnalysis, hne, Ser.handleFileUpload, getField, lookupField, truthy]

/-- A concrete snapshot exercising both optional derived fields. -/
def c4WitnessState : Ser.SState :=
  { videos := [{ id := "a", url := "u", views := 3, likes := 1, comments := 0,
                 year := 2020, score := .num (5/2), warnings := some ["w"] }],
    showResults := true, saveName := "Mi análisis" }

/-- Witness for C4 at a concrete snapshot. -/
theorem c4_export_import_round_trip_witness :
    (Ser.exportAnalysis "d0" c4WitnessState).bind (fun j => Ser.handleFileUpload j) =
      some (c4WitnessState.videos.map Ser.encodeVideo,
            some (.bool c4WitnessState.showResults),
            some (.str (Ser.exportName c4WitnessState))) ∧
    Ser.decodeVideos (c4WitnessState.videos.map Ser.encodeVideo) =
      some c4WitnessState.videos :=
  ⟨(c4_export_import_round_trip "d0" c4WitnessState
      (by simp [c4WitnessState])
      (by
        intro v hv
        rcases List.mem_singleton.1 hv with rfl
        decide)).2.1,
   (c4_export_import_round_trip "d0" c4WitnessState
      (by simp [c4WitnessState])
      (by
        intro v hv
        rcases List.mem_singleton.1 hv with rfl
        decide)).2.2⟩

/-- A snapshot whose single record carries a non-finite (`NaN`) score, the
kind of state the C2 bug produces. -/
def c4NanState : Ser.SState :=
  { videos := [{ id := "n", url := "u", views := 0, likes := 0, comments := 0,
                 year := 2024, score := .nonfinite, warnings := some [] }],
    showResults := true, saveName := "" }

/-- Counterexample to C4 as stated: a record whose computed score is
non-finite is serialized by `JSON.stringify` as `"score": null` and restored
by the import as `null`, so importing the exported snapshot does not yield
the same list of video records. -/
theorem c4_nonfinite_score_not_restored :
    (Ser.exportAnalysis "d" c4NanState).bind (fun j => Ser.handleFileUpload j) =
      some (c4NanState.videos.map Ser.encodeVideo,
            some (.bool c4NanState.showResults),
            some (.str (Ser.exportName c4NanState))) ∧
    Ser.decodeVideos (c4NanState.videos.map Ser.encodeVideo) ≠
      some c4NanState.videos := by
  constructor
  · simp [Ser.exportAnalysis, Ser.handleFileUpload, c4NanState,
      getField, lookupField, truthy]
  · decide

/-! ## Claim C6 -/

theorem processFile_acc (now date dflt : String) (f : Imp.ImpFile)
    (e : List Imp.Entry) (r : List String) :
    Imp.processFile now date dflt (e, r) f =
      ((Imp.processFile now date dflt (e, []) f).1,
       r ++ (Imp.processFile now date dflt (e, []) f).2) := by
  rcases f with ⟨n, p⟩
  cases p with
  | none => simp [Imp.processFile]
  | some j => by_cases h : Imp.validFile j <;> simp [Imp.processFile, h]

theorem foldl_processFile_acc (now date dflt : String) (files : List Imp.ImpFile) :
    ∀ (e : List Imp.Entry) (r : List String),
      files.foldl (Imp.processFile now date dflt) (e, r) =
        ((files.foldl (Imp.processFile now date dflt) (e, [])).1,
         r ++ (files.foldl (Imp.processFile now date dflt) (e, [])).2) := by
  induction files with
  | nil => intro e r; simp
  | cons f t ih =>
    intro e r
    simp only [List.foldl_cons]
    rw [processFile_acc now date dflt f e r,
        ih ((Imp.processFile now date dflt (e, []) f).1)
           (r ++ (Imp.processFile now date dflt (e, []) f).2),
        ih ((Imp.processFile now date dflt (e, []) f).1)
           ((Imp.processFile now date dflt (e, []) f).2)]
    simp

theorem processFile_bad (now date dflt : String) {j : Json}
    (hbad : Imp.validFile j = false) (n : String) (acc : List Imp.Entry × List String) :
    Imp.processFile now date dflt acc ⟨n, some j⟩ =
      (acc.1, acc.2 ++ ["Error al procesar " ++ n]) := by
  simp [Imp.processFile, hbad]

/-- Claim C6: an imported file that lacks `version`, lacks `analysis`, or
whose `analysis.videos` is not an array is rejected with a report; the
catalog is untouched, the history receives exactly the entries of the other
files of the batch, and each other file is processed as if the bad file were
absent. -/
theorem c6_invalid_import_isolated {σ : Type} (videos : σ)
    (history : List Imp.Entry) (now date dflt : String)
    (l1 l2 : List Imp.ImpFile) (n : String) (j : Json)
    (hbad : getField j "version" = none ∨ getField j "analysis" = none ∨
      isArrayJson ((getField j "analysis").bind (fun a => getField a "videos")) = false) :
    Imp.handleFileUpload now date dflt (l1 ++ ⟨n, some j⟩ :: l2) videos history =
      (videos,
       history ++ Imp.entriesOf now date dflt (l1 ++ l2),
       Imp.reportsOf now date dflt l1 ++ ("Error al procesar " ++ n) ::
         (l2.foldl (Imp.processFile now date dflt)
           (Imp.entriesOf now date dflt l1, [])).2) := by
  have hval : Imp.validFile j = false := by
    rcases hbad with h | h | h
    · simp [Imp.validFile, h, truthy]
    · simp [Imp.validFile, h, truthy]
    · simp [Imp.validFile, h]
  have key : Imp.processFiles now date dflt (l1 ++ ⟨n, some j⟩ :: l2) =
      ((Imp.processFiles now date dflt (l1 ++ l2)).1,
       Imp.reportsOf now date dflt l1 ++ ("Error al procesar " ++ n) ::
         (l2.foldl (Imp.processFile now date dflt)
           (Imp.entriesOf now date dflt l1, [])).2) := by
    rw [Imp.processFiles, Imp.processFiles, List.foldl_append, List.foldl_append,
        List.foldl_cons]
    rw [show (l1.foldl (Imp.processFile now date dflt) ([], [])) =
        (Imp.entriesOf now date dflt l1, Imp.reportsOf now date dflt l1) from rfl]
    rw [processFile_bad now date dflt hval n]
    rw [foldl_processFile_acc now date dflt l2
          (Imp.entriesOf now date dflt l1)
          (Imp.reportsOf now date dflt l1 ++ ["Error al procesar " ++ n]),
        foldl_processFile_acc now date dflt l2
          (Imp.entriesOf now date dflt l1) (Imp.reportsOf now date dflt l1)]
    simp
  rw [Imp.handleFileUpload, Imp.entriesOf, Imp.reportsOf, key]
  rw [show Imp.entriesOf now date dflt (l1 ++ l2) =
      (Imp.processFiles now date dflt (l1 ++ l2)).1 from rfl]

/-- Witness for C6: a batch with one valid file, the spec's example bad file
(`version` present but no `analysis`), and another valid file. -/
theorem c6_invalid_import_isolated_witness :
    Imp.handleFileUpload "9" "d" "Importado"
      ([⟨"a.json", some (Json.obj [("version", Json.str "1.0"),
          ("analysis", Json.obj [("videos", Json.arr [])])])⟩] ++
        ⟨"bad.json", some (Json.obj [("version", Json.str "1.0")])⟩ ::
        [⟨"b.json", some (Json.obj [("version", Json.str "1.0"),
          ("analysis", Json.obj [("videos", Json.arr [])])])⟩])
      (42 : ℕ) [] =
      (42,
       [] ++ Imp.entriesOf "9" "d" "Importado"
         ([⟨"a.json", some (Json.obj [("version", Json.str "1.0"),
             ("analysis", Json.obj [("videos", Json.arr [])])])⟩] ++
          [⟨"b.json", some (Json.obj [("version", Json.str "1.0"),
             ("analysis", Json.obj [("videos", Json.arr [])])])⟩]),
       Imp.reportsOf "9" "d" "Importado"
         [⟨"a.json", some (Json.obj [("version", Json.str "1.0"),
             ("analysis", Json.obj [("videos", Json.arr [])])])⟩] ++
         ("Error al procesar " ++ "bad.json") ::
         ([⟨"b.json", some (Json.obj [("version", Json.str "1.0"),
             ("analysis", Json.obj [("videos", Json.arr [])])])⟩].foldl
           (Imp.processFile "9" "d" "Importado")
           (Imp.entriesOf "9" "d" "Importado"
             [⟨"a.json", some (Json.obj [("version", Json.str "1.0"),
                 ("analysis", Json.obj [("videos", Json.arr [])])])⟩], [])).2) :=
  c6_invalid_import_isolated 42 [] "9" "d" "Importado" _ _ "bad.json" _
    (Or.inr (Or.inl rfl))

/-! ## Claim C7 -/

theorem takeWhile_stable {p : Char → Bool} (l : List Char) :
    (l.takeWhile p).takeWhile p = l.takeWhile p := by
  induction l with
  | nil => rfl
  | cons a t ih => by_cases h : p a <;> simp [List.takeWhile_cons, h, ih]

theorem cleanUrl_idem (u : String) : cleanUrl (cleanUrl u) = cleanUrl u := by
  rcases u with ⟨l⟩
  exact congrArg String.mk (takeWhile_stable l)

/-- Claim C7 (amended): in the URL-fetch revision an empty or invalid URL and
a duplicate normalized URL abort `addVideo` with no state change, and adding
the same normalized URL twice starting from an empty catalog leaves the
catalog at length 1; in the manual-entry revision an empty or invalid URL or
a negative like/comment counter aborts with no state change (negative views
are not validated there, and duplicates are not rejected); a save with an
empty trimmed name aborts with no state change. -/
theorem c7_validation_aborts :
    (∀ (i : String) (f : Option Feqt.Fetched) (u : String) (st : Feqt.AppState),
      u = "" ∨ validateYouTubeUrl u = false → Feqt.addVideo i f u st = st) ∧
    (∀ (i : String) (f : Option Feqt.Fetched) (u : String) (st : Feqt.AppState),
      (∃ v ∈ st.videos, cleanUrl v.url = cleanUrl u) → Feqt.addVideo i f u st = st) ∧
    (∀ (i1 i2 : String) (f2 : Option Feqt.Fetched) (u : String) (fd : Feqt.Fetched),
      validateYouTubeUrl u = true → (getVideoId u).isSome = true →
      (Feqt.addVideo i1 (some fd) u ⟨[], false, [], ""⟩).videos.length = 1 ∧
      Feqt.addVideo i2 f2 u (Feqt.addVideo i1 (some fd) u ⟨[], false, [], ""⟩) =
        Feqt.addVideo i1 (some fd) u ⟨[], false, [], ""⟩) ∧
    (∀ (i : String) (nv : Bayes.NewVideo) (l : List Bayes.VideoData),
      nv.url = "" ∨ validateYouTubeUrlB nv.url = false → Bayes.addVideo i nv l = l) ∧
    (∀ (i : String) (nv : Bayes.NewVideo) (l : List Bayes.VideoData),
      nv.likes < 0 ∨ nv.comments < 0 → Bayes.addVideo i nv l = l) ∧
    (∀ (i d : String) (st : Feqt.AppState), jsTrim st.saveName = "" →
      Feqt.saveCurrentAnalysis i d st = st) := by
  have hval0 : validateYouTubeUrl "" = false := by decide
  refine ⟨?_, ?_, ?_, ?_, ?_, ?_⟩
  · intro i f u st h
    rw [addVideo_eq, if_pos h]
  · intro i f u st ⟨v, hv, hcl⟩
    rw [addVideo_eq]
    by_cases h1 : u = "" ∨ validateYouTubeUrl u = false
    · rw [if_pos h1]
    · rw [if_neg h1, if_pos]
      exact List.any_eq_true.2 ⟨v, hv, beq_iff_eq.2 hcl⟩
  · intro i1 i2 f2 u fd hv hg
    have hne : ¬(u = "" ∨ validateYouTubeUrl u = false) := by
      rintro (rfl | h)
      · rw [hval0] at hv
        cases hv
      · rw [hv] at h
        cases h
    obtain ⟨gid, hgid⟩ := Option.isSome_iff_exists.1 hg
    have hadd1 : Feqt.addVideo i1 (some fd) u ⟨[], false, [], ""⟩ =
        { videos := [{ id := i1, url := cleanUrl u, views := fd.views,
                       likes := fd.likes, comments := fd.comments,
                       ageDays := fd.ageDays }],
          showResults := false, history := [], saveName := "" } := by
      rw [addVideo_eq, if_neg hne]
      simp [hgid]
    have hdup : ([({ id := i1, url := cleanUrl u, views := fd.views,
                     likes := fd.likes, comments := fd.comments,
                     ageDays := fd.ageDays } : Feqt.VideoData)].any
          (fun v => cleanUrl v.url == cleanUrl u)) = true := by
      simp only [List.any_cons, List.any_nil, Bool.or_false]
      exact beq_iff_eq.2 (cleanUrl_idem u)
    constructor
    · rw [hadd1]
      rfl
    · rw [hadd1, addVideo_eq, if_neg hne, if_pos hdup]
  · intro i nv l h
    rw [Bayes.addVideo, if_pos h]
  · intro i nv l h
    rw [Bayes.addVideo]
    by_cases h1 : nv.url = "" ∨ validateYouTubeUrlB nv.url = false
    · rw [if_pos h1]
    · rw [if_neg h1, if_pos h]
  · intro i d st h
    rw [Feqt.saveCurrentAnalysis]
    by_cases h1 : st.videos.isEmpty = true
    · rw [if_pos h1]
    · rw [if_neg h1, if_pos h]

/-- Witness for C7 at concrete inputs: a rejected invalid URL, a duplicate
add kept at length 1, a rejected negative like counter, and a rejected
all-whitespace save name. -/
theorem c7_validation_aborts_witness :
    Feqt.addVideo "w1" none "not-a-url" ⟨[], false, [], ""⟩ = ⟨[], false, [], ""⟩ ∧
    (Feqt.addVideo "w2" (some ⟨5, 1, 0, 2⟩)
      "https://www.youtube.com/watch?v=abcdefghijk"
      ⟨[], false, [], ""⟩).videos.length = 1 ∧
    Bayes.addVideo "w3"
      { url := "https://www.youtube.com/watch?v=abcdefghijk", views := 1,
        likes := -1, comments := 0, year := 2020 } [] = [] ∧
    Feqt.saveCurrentAnalysis "w4" "d" ⟨[], false, [], "   "⟩ =
      ⟨[], false, [], "   "⟩ :=
  ⟨c7_validation_aborts.1 "w1" none "not-a-url" _ (Or.inr (by decide)),
   (c7_validation_aborts.2.2.1 "w2" "x" none
      "https://www.youtube.com/watch?v=abcdefghijk" ⟨5, 1, 0, 2⟩
      (by decide) (by decide)).1,
   c7_validation_aborts.2.2.2.2.1 "w3" _ [] (Or.inl (by decide)),
   c7_validation_aborts.2.2.2.2.2 "w4" "d" _ (by decide)⟩

/-- Counterexample to C7 as stated: in the manual-entry revision a record
with a negative `views` counter is appended anyway (the state changes), and
duplicates are not rejected — adding the same URL twice yields a catalog of
length 2, not 1. -/
theorem c7_negative_views_and_duplicates_accepted :
    (Bayes.addVideo "i1"
      { url := "https://www.youtube.com/watch?v=abcdefghijk", views := -5,
        likes := 0, comments := 0, year := 2020 } []).length = 1 ∧
    (Bayes.addVideo "i2"
      { url := "https://www.youtube.com/watch?v=abcdefghijk", views := 7,
        likes := 0, comments := 0, year := 2020 }
      (Bayes.addVideo "i1"
        { url := "https://www.youtube.com/watch?v=abcdefghijk", views := 7,
          likes := 0, comments := 0, year := 2020 } [])).length = 2 := by
  constructor <;> decide

/-! ## Claim C5 -/

theorem eq_of_perm_of_pairwise_asymm {α : Type} {r : α → α → Prop}
    (hr : ∀ a b, r a b → r b a → False) :
    ∀ {l₁ l₂ : List α}, l₁.Perm l₂ → l₁.Pairwise r → l₂.Pairwise r → l₁ = l₂ := by
  intro l₁
  induction l₁ with
  | nil =>
    intro l₂ hp _ _
    exact hp.nil_eq
  | cons a t ih =>
    intro l₂ hp h1 h2
    have ha : a ∈ l₂ := hp.mem_iff.1 (List.mem_cons_self a t)
    obtain ⟨u, w, rfl⟩ := List.append_of_mem ha
    cases u with
    | nil =>
      simp only [List.nil_append] at hp h2 ⊢
      exact congrArg (List.cons a)
        (ih hp.cons_inv (List.pairwise_cons.1 h1).2 (List.pairwise_cons.1 h2).2)
    | cons x u2 =>
      exfalso
      have hxa : r x a := by
        rw [List.pairwise_append] at h2
        exact h2.2.2 x (List.mem_cons_self x u2) a (List.mem_cons_self a w)
      have hperm2 : t.Perm (x :: u2 ++ w) := (hp.trans List.perm_middle).cons_inv
      have hxt : x ∈ t := hperm2.mem_iff.2 (by simp)
      exact hr x a hxa ((List.pairwise_cons.1 h1).1 x hxt)

theorem not_falsy_iff {v : Feqt.VideoData} :
    ¬ Feqt.falsyNs v ↔ ∃ x : ℝ, v.normalizedScore = some x ∧ x ≠ 0 := by
  rw [Feqt.falsyNs]
  cases hv : v.normalizedScore with
  | none => simp [hv]
  | some x =>
    constructor
    · intro h
      exact ⟨x, rfl, fun h0 => h (Or.inr (by rw [h0]))⟩
    · rintro ⟨y, hy, hy0⟩ (h | h)
      · cases h
      · injection h with h
        injection hy with hy
        exact hy0 (hy ▸ h)

theorem sortLe_total (asc : Bool) (a b : Feqt.VideoData) :
    Feqt.sortLe asc a b ∨ Feqt.sortLe asc b a := by
  rw [Feqt.sortLe, Feqt.sortLe, Feqt.comparatorVal, Feqt.comparatorVal]
  by_cases h : Feqt.falsyNs a ∨ Feqt.falsyNs b
  · rw [if_pos h, if_pos (Or.symm h)]
    exact Or.inl le_rfl
  · rw [if_neg h, if_neg (fun hc => h (Or.symm hc))]
    cases asc <;> simp only [Bool.false_eq_true, if_false, if_true, sub_nonpos] <;>
      exact le_total _ _

theorem sortLe_desc_le {a b : Feqt.VideoData} (ha : ¬ Feqt.falsyNs a)
    (hb : ¬ Feqt.falsyNs b) (h : Feqt.sortLe false a b) :
    Feqt.nsVal b ≤ Feqt.nsVal a := by
  rw [Feqt.sortLe, Feqt.comparatorVal, if_neg (fun hc => hc.elim ha hb)] at h
  simp only [Bool.false_eq_true, if_false] at h
  linarith

theorem sortLe_asc_le {a b : Feqt.VideoData} (ha : ¬ Feqt.falsyNs a)
    (hb : ¬ Feqt.falsyNs b) (h : Feqt.sortLe true a b) :
    Feqt.nsVal a ≤ Feqt.nsVal b := by
  rw [Feqt.sortLe, Feqt.comparatorVal, if_neg (fun hc => hc.elim ha hb)] at h
  simp only [if_true] at h
  linarith

theorem sortLe_trans_of_truthy {asc : Bool} {a b c : Feqt.VideoData}
    (ha : ¬ Feqt.falsyNs a) (hb : ¬ Feqt.falsyNs b) (hc : ¬ Feqt.falsyNs c)
    (h1 : Feqt.sortLe asc a b) (h2 : Feqt.sortLe asc b c) : Feqt.sortLe asc a c := by
  rw [Feqt.sortLe, Feqt.comparatorVal, if_neg (fun hx => hx.elim ha hb)] at h1
  rw [Feqt.sortLe, Feqt.comparatorVal, if_neg (fun hx => hx.elim hb hc)] at h2
  rw [Feqt.sortLe, Feqt.comparatorVal, if_neg (fun hx => hx.elim ha hc)]
  cases asc <;> simp_all <;> linarith

theorem sortLe_of_eq_ns {asc : Bool} {a b : Feqt.VideoData}
    (h : a.normalizedScore = b.normalizedScore) : Feqt.sortLe asc a b := by
  rw [Feqt.sortLe, Feqt.comparatorVal]
  by_cases hf : Feqt.falsyNs a ∨ Feqt.falsyNs b
  · rw [if_pos hf]
  · rw [if_neg hf]
    have hv : Feqt.nsVal a = Feqt.nsVal b := by rw [Feqt.nsVal, Feqt.nsVal, h]
    cases asc <;> simp [hv]

/-- Claim C5 (amended): for catalogs of scored records with truthy, pairwise
distinct normalized scores, the descending sort equals the reverse of the
ascending sort; and the sort is stable in both directions — a pair of records
whose normalized scores are equal keeps its relative input order.  (On a
catalog with tied scores the reverse equation necessarily fails, precisely
because stability keeps tied records in input order under both directions.) -/
theorem c5_sort_reverse_and_stable :
    (∀ l : List Feqt.VideoData,
      (∀ v ∈ l, ¬ Feqt.falsyNs v) →
      l.Pairwise (fun a b => a.normalizedScore ≠ b.normalizedScore) →
      Feqt.sortVideos false l = (Feqt.sortVideos true l).reverse) ∧
    (∀ (asc : Bool) (a b : Feqt.VideoData) (l : List Feqt.VideoData),
      a.normalizedScore = b.normalizedScore →
      [a, b].Sublist l → [a, b].Sublist (Feqt.sortVideos asc l)) := by
  constructor
  · intro l hT hD
    have hr : ∀ a b : Feqt.VideoData,
        Feqt.nsVal b < Feqt.nsVal a → Feqt.nsVal a < Feqt.nsVal b → False :=
      fun a b h1 h2 => absurd h1 (not_lt.2 h2.le)
    have hpermD : (Feqt.sortVideos false l).Perm l := sortJS_perm _ l
    have hpermA : (Feqt.sortVideos true l).Perm l := sortJS_perm _ l
    have hpwD : (Feqt.sortVideos false l).Pairwise (Feqt.sortLe false) :=
      pairwise_sortJS _ (fun a _ b _ => sortLe_total false a b)
        (fun a ha b hb c hc h1 h2 =>
          sortLe_trans_of_truthy (hT a ha) (hT b hb) (hT c hc) h1 h2)
    have hpwA : (Feqt.sortVideos true l).Pairwise (Feqt.sortLe true) :=
      pairwise_sortJS _ (fun a _ b _ => sortLe_total true a b)
        (fun a ha b hb c hc h1 h2 =>
          sortLe_trans_of_truthy (hT a ha) (hT b hb) (hT c hc) h1 h2)
    have hne : ∀ {x y : Feqt.VideoData},
        x.normalizedScore ≠ y.normalizedScore → y.normalizedScore ≠ x.normalizedScore :=
      fun h => h.symm
    have hDD := (hpermD.pairwise_iff hne).2 hD
    have hDA := (hpermA.pairwise_iff hne).2 hD
    have hnsne : ∀ {x y : Feqt.VideoData}, ¬ Feqt.falsyNs x → ¬ Feqt.falsyNs y →
        x.normalizedScore ≠ y.normalizedScore → Feqt.nsVal x ≠ Feqt.nsVal y := by
      intro x y hx hy hxy
      obtain ⟨a, hax, ha0⟩ := not_falsy_iff.1 hx
      obtain ⟨b, hby, hb0⟩ := not_falsy_iff.1 hy
      simp only [Feqt.nsVal, hax, hby, Option.getD_some]
      intro hab
      exact hxy (by rw [hax, hby, hab])
    have hstrD : (Feqt.sortVideos false l).Pairwise
        (fun a b => Feqt.nsVal b < Feqt.nsVal a) := by
      refine (hpwD.and hDD).imp_of_mem ?_
      intro a b ha hb hab
      have hta := hT a (hpermD.mem_iff.1 ha)
      have htb := hT b (hpermD.mem_iff.1 hb)
      exact lt_of_le_of_ne (sortLe_desc_le hta htb hab.1)
        (hnsne htb hta (hne hab.2))
    have hstrRA : ((Feqt.sortVideos true l).reverse).Pairwise
        (fun a b => Feqt.nsVal b < Feqt.nsVal a) := by
      rw [List.pairwise_reverse]
      refine (hpwA.and hDA).imp_of_mem ?_
      intro a b ha hb hab
      have hta := hT a (hpermA.mem_iff.1 ha)
      have htb := hT b (hpermA.mem_iff.1 hb)
      exact lt_of_le_of_ne (sortLe_asc_le hta htb hab.1) (hnsne hta htb hab.2)
    exact eq_of_perm_of_pairwise_asymm hr
      (hpermD.trans (hpermA.symm.trans (List.reverse_perm _).symm)) hstrD hstrRA
  · intro asc a b l h hsub
    exact pair_sublist_sortJS _ (sortLe_of_eq_ns h) hsub

/-- A scored record tied at normalized score 5 (first in input order). -/
def tieA : Feqt.VideoData :=
  { id := "a", url := "u1", views := 1, likes := 0, comments := 0, ageDays := 1,
    normalizedScore := some 5 }

/-- A scored record tied at normalized score 5 (second in input order). -/
def tieB : Feqt.VideoData :=
  { id := "b", url := "u2", views := 1, likes := 0, comments := 0, ageDays := 1,
    normalizedScore := some 5 }

/-- Counterexample to C5 as stated: on two records with equal normalized
scores the stable sort keeps input order in both directions, so the
descending sort differs from the reverse of the ascending sort. -/
theorem c5_reverse_fails_on_ties :
    Feqt.sortVideos false [tieA, tieB] ≠ (Feqt.sortVideos true [tieA, tieB]).reverse := by
  have hAB : ∀ asc : Bool, Feqt.sortLe asc tieA tieB :=
    fun asc => sortLe_of_eq_ns rfl
  have hsort : ∀ asc : Bool, Feqt.sortVideos asc [tieA, tieB] = [tieA, tieB] := by
    intro asc
    rw [Feqt.sortVideos]
    simp only [sortJS, insertSorted]
    rw [if_pos (hAB asc)]
  rw [hsort false, hsort true,
    show ([tieA, tieB]).reverse = [tieB, tieA] from rfl]
  intro heq
  injection heq with h1 h2
  exact absurd (congrArg Feqt.VideoData.id h1) (by decide)

/-- Witness for C5 on concrete catalogs: distinct scores give the reverse
equation, tied scores keep input order. -/
theorem c5_sort_reverse_and_stable_witness :
    Feqt.sortVideos false
        [{ id := "p", url := "u1", views := 1, likes := 0, comments := 0,
           ageDays := 1, normalizedScore := some 7 },
         { id := "q", url := "u2", views := 1, likes := 0, comments := 0,
           ageDays := 1, normalizedScore := some 5 }] =
      (Feqt.sortVideos true
        [{ id := "p", url := "u1", views := 1, likes := 0, comments := 0,
           ageDays := 1, normalizedScore := some 7 },
         { id := "q", url := "u2", views := 1, likes := 0, comments := 0,
           ageDays := 1, normalizedScore := some 5 }]).reverse ∧
    [tieA, tieB].Sublist (Feqt.sortVideos true [tieA, tieB]) :=
  ⟨c5_sort_reverse_and_stable.1 _
      (by
        intro v hv
        simp only [List.mem_cons, List.not_mem_nil, or_false] at hv
        rcases hv with rfl | rfl <;> rw [not_falsy_iff] <;>
          exact ⟨_, rfl, by norm_num⟩)
      (by
        refine List.pairwise_cons.2 ⟨?_, List.pairwise_singleton _ _⟩
        intro b hb
        simp only [List.mem_singleton] at hb
        subst hb
        simp only [ne_eq, Option.some.injEq]
        norm_num),
   c5_sort_reverse_and_stable.2 true tieA tieB [tieA, tieB] rfl
     (List.Sublist.refl _)⟩

end YTFilter
